import Mathlib

/-!
Verification of the resilient connection-and-detection engine of the
percona-agent repository: the retry/backoff policy (pct/backoff.go), the
dynamic multi-target restart-detection monitor (mrms/monitor/monitor.go)
and the connection-supervised metric collector (the mysql monitor run
loop).  Go code is shallowly embedded: structs become structures, methods
become pure functions threading the receiver state, time stamps are
integers (seconds), the random draw of rand.Float64 is a rational
parameter in [0,1), and channels/goroutine interaction is replaced by
explicit event streams.
-/

namespace PerconaAgent

/-! ### Backoff (src/pct/backoff.go)

`type Backoff struct { try int; lastSuccess time.Time; resetAfter time.Duration; NowFunc func() time.Time }`

The Go zero `time.Time` (for which `IsZero()` is true) is modelled as
`none`; a set timestamp is `some t` with `t` in seconds.  `resetAfter`
is a duration in seconds.  `NowFunc` is the injected clock: the model
passes the current time as an explicit argument. -/

structure Backoff where
  tryCount : Nat
  lastSuccess : Option Int
  resetAfter : Int
  deriving Repr, DecidableEq

/-- Go `NewBackoff(resetAfter)`: zero `try`, zero `lastSuccess`. -/
def NewBackoff (resetAfter : Int) : Backoff :=
  { tryCount := 0, lastSuccess := none, resetAfter := resetAfter }

/-- Go `Backoff.Wait()`.  The argument `r` is the value drawn by
`rand.Float64()`, in `[0,1)`.  `math.Pow(2, float64(b.tryCount)) - 1` is exact
for `try < 7`, hence `2 ^ b.tryCount - 1`; `int(90 + 90*rand.Float64())`
truncates a non-negative value, hence the floor.  The returned duration is
in seconds (the Go code multiplies by `time.Second`). -/
def Backoff.wait (b : Backoff) (r : ℚ) : Backoff × Int :=
  if b.tryCount = 0 then
    ({ b with tryCount := b.tryCount + 1 }, 0)
  else if b.tryCount < 7 then
    ({ b with tryCount := b.tryCount + 1 }, 2 ^ b.tryCount - 1)
  else
    (b, ⌊(90 : ℚ) + 90 * r⌋)

/-- Go `Backoff.Success()`.  `now` is the current clock reading, used both
where the Go code calls `time.Now()` and where it calls `b.NowFunc()`
(in production `NowFunc = time.Now`).  Note the Go condition is
`b.lastSuccess.Sub(b.NowFunc()) > b.resetAfter`, i.e. lastSuccess − now,
translated verbatim. -/
def Backoff.success (b : Backoff) (now : Int) : Backoff :=
  match b.lastSuccess with
  | none => { b with lastSuccess := some now }
  | some ls =>
    if b.resetAfter < ls - now then
      { b with lastSuccess := some now, tryCount := 0 }
    else
      b

/-- State of a fresh backoff after `n` calls of `Wait`, the draws of
`rand.Float64` being the stream `r`. -/
def waitState (resetAfter : Int) (r : Nat → ℚ) : Nat → Backoff
  | 0 => NewBackoff resetAfter
  | n + 1 => ((waitState resetAfter r n).wait (r n)).1

/-- Duration returned by the `n`-th call of `Wait` (0-based). -/
def waitOut (resetAfter : Int) (r : Nat → ℚ) (n : Nat) : Int :=
  ((waitState resetAfter r n).wait (r n)).2

/-! ### Restart-detection monitor (src/mrms/monitor/monitor.go)

The Go map `map[string]*MysqlInstance` is embedded as an association
list with `String` keys (iteration order of `Check` is the list order;
the Go map order is unspecified, and no claim depends on it).  Channel
handles are natural-number identifiers. -/

/-- Lookup in an association list, first match wins. -/
def alLookup {α : Type} (k : String) : List (String × α) → Option α
  | [] => none
  | (k', v) :: rest => if k' = k then some v else alLookup k rest

/-- Replace the value stored under an existing key. -/
def alUpdate {α : Type} (k : String) (v : α) : List (String × α) → List (String × α)
  | [] => []
  | (k', v') :: rest =>
    if k' = k then (k, v) :: rest else (k', v') :: alUpdate k v rest

/-- Delete the first entry with the given key (Go `delete(m, k)`). -/
def alErase {α : Type} (k : String) : List (String × α) → List (String × α)
  | [] => []
  | (k', v') :: rest => if k' = k then rest else (k', v') :: alErase k rest

/-- Modelled from the spec: the `Subscribers` registry of the restart
monitor (its source file is not under src/, only its callers in
monitor.go are).  Per §4.2 it keeps a per-target set of notification
channels (`chans`, as handles allocated by `add`), plus membership in
the single global merged channel (`globalReg`). -/
structure Subscribers where
  nextId : Nat
  chans : List Nat
  globalReg : Bool
  deriving Repr, DecidableEq

/-- Modelled from the spec: a fresh registry has an initially empty
subscriber set (§4.2 `add`). -/
def NewSubscribers : Subscribers :=
  { nextId := 0, chans := [], globalReg := false }

/-- Modelled from the spec: `add` creates a new per-target notification
channel, registers it, and returns a read-only handle (§4.2). -/
def Subscribers.add (s : Subscribers) : Subscribers × Nat :=
  ({ s with nextId := s.nextId + 1, chans := s.nextId :: s.chans }, s.nextId)

/-- Modelled from the spec: `remove(t, handle)` unregisters the handle
(§4.2). -/
def Subscribers.remove (s : Subscribers) (c : Nat) : Subscribers :=
  { s with chans := s.chans.erase c }

/-- Modelled from the spec: `Empty()` is emptiness of the per-target
subscriber set of direct handles (§4.2: eviction happens when "the
per-target subscriber set becomes empty"; `globalRemove` is
"independent of direct handles"). -/
def Subscribers.isEmpty (s : Subscribers) : Bool :=
  s.chans.isEmpty

/-- Modelled from the spec: `globalAdd` registers the merged global
channel for this target (§4.2). -/
def Subscribers.globalAdd (s : Subscribers) : Subscribers :=
  { s with globalReg := true }

/-- Modelled from the spec: `globalRemove(t)` unregisters the target
from the merged global stream, independent of direct handles (§4.2). -/
def Subscribers.globalRemove (s : Subscribers) : Subscribers :=
  { s with globalReg := false }

/-- Modelled from the spec: the monitored-instance record — "target
identity, an open or openable connection handle" (§3) plus the
subscriber set.  The per-target restart fingerprint and
`CheckIfMysqlRestarted` (not under src/) are abstracted into the
restart-check oracle passed to `check`. -/
structure MysqlInstance where
  dsn : String
  connId : Nat
  subscribers : Subscribers
  deriving Repr, DecidableEq

/-- State of the `Monitor` (src/mrms/monitor/monitor.go): the
`mysqlInstances` map, a fresh-handle counter for connections opened by
instance creation, and the set of connection handles on which a close
has been invoked.  No method of the monitor in src/ ever closes an
instance connection, so no transition extends `closedConns`; the field
makes that absence observable. -/
structure MonitorState where
  mysqlInstances : List (String × MysqlInstance)
  nextConnId : Nat
  closedConns : List Nat
  deriving Repr, DecidableEq

/-- Go `NewMonitor`: `mysqlInstances: make(map[string]*MysqlInstance)`. -/
def MonitorState.init : MonitorState :=
  { mysqlInstances := [], nextConnId := 0, closedConns := [] }

/-- Go `Monitor.createMysqlInstance` (monitor.go lines 192-201) calls
the connection factory and `NewMysqlInstance`.  `NewMysqlInstance` is
not under src/; Modelled from the spec: "adding a target for the first
time opens a connection to it (failure to open returns an error to the
caller ...)" (§4.3), so the environment `connOk` says whether opening a
connection to a given target succeeds, and success allocates a fresh
connection handle.  `none` models a non-nil Go error. -/
def MonitorState.createMysqlInstance (st : MonitorState) (connOk : String → Bool)
    (dsn : String) : Option (MonitorState × MysqlInstance) :=
  if connOk dsn then
    some ({ st with nextConnId := st.nextConnId + 1 },
      { dsn := dsn, connId := st.nextConnId, subscribers := NewSubscribers })
  else
    none

/-- Go `Monitor.Add` (monitor.go lines 87-105): look the target up; on a
miss create the instance (propagating a creation error with the state
unchanged) and store it; then subscribe, returning the new handle.
`none` in the second component models the Go `(nil, err)` return. -/
def MonitorState.add (st : MonitorState) (connOk : String → Bool) (dsn : String) :
    MonitorState × Option Nat :=
  match alLookup dsn st.mysqlInstances with
  | some inst =>
    let p := inst.subscribers.add
    ({ st with mysqlInstances :=
        alUpdate dsn { inst with subscribers := p.1 } st.mysqlInstances },
      some p.2)
  | none =>
    match st.createMysqlInstance connOk dsn with
    | none => (st, none)
    | some (st1, inst) =>
      let p := inst.subscribers.add
      ({ st1 with mysqlInstances :=
          (dsn, { inst with subscribers := p.1 }) :: st1.mysqlInstances },
        some p.2)

/-- Go `Monitor.Remove` (monitor.go lines 124-138): if the target is
registered, unregister the handle; if the subscriber set became empty,
delete the map entry; finally `GlobalRemove` (which, after a delete,
acts only on the evicted record).  No close is invoked on the
instance's connection anywhere in this method. -/
def MonitorState.remove (st : MonitorState) (dsn : String) (c : Nat) : MonitorState :=
  match alLookup dsn st.mysqlInstances with
  | none => st
  | some inst =>
    let s1 := inst.subscribers.remove c
    if s1.isEmpty then
      { st with mysqlInstances := alErase dsn st.mysqlInstances }
    else
      { st with mysqlInstances :=
          alUpdate dsn { inst with subscribers := s1.globalRemove } st.mysqlInstances }

/-- Helper of `globalSubscribe`: one loop iteration. -/
def instGlobalAdd (p : String × MysqlInstance) : String × MysqlInstance :=
  (p.1, { p.2 with subscribers := p.2.subscribers.globalAdd })

/-- Go `Monitor.GlobalSubscribe` (monitor.go lines 107-122): registers
the monitor's global channel with every instance's subscriber set. -/
def MonitorState.globalSubscribe (st : MonitorState) : MonitorState :=
  { st with mysqlInstances := st.mysqlInstances.map instGlobalAdd }

/-- Outcome of one target during `Monitor.Check`: the restart check
errored (logged, `continue`), reported a restart (`Notify` invoked), or
reported no restart. -/
inductive CheckEvent where
  | errorLogged (dsn : String)
  | notified (dsn : String)
  | noRestart (dsn : String)
  deriving Repr, DecidableEq

/-- Event produced for one target given the oracle `res`, the result of
`CheckIfMysqlRestarted` for each target on this tick (`none` = error;
that method is not under src/ and is abstracted per spec §4.3). -/
def checkEventFor (res : String → Option Bool) (dsn : String) : CheckEvent :=
  match res dsn with
  | none => CheckEvent.errorLogged dsn
  | some true => CheckEvent.notified dsn
  | some false => CheckEvent.noRestart dsn

/-- Iteration of the `Check` loop body over the instance map. -/
def checkRun (res : String → Option Bool) :
    List (String × MysqlInstance) → List CheckEvent
  | [] => []
  | (dsn, _) :: rest => checkEventFor res dsn :: checkRun res rest

/-- Go `Monitor.Check` (monitor.go lines 140-158): under a read lock it
iterates the instance map; an erroring target is logged and skipped via
`continue`, a restarted one gets `Subscribers.Notify()`.  The map is
never written (read lock only), so the state is returned unchanged
together with the per-target event trace. -/
def MonitorState.check (st : MonitorState) (res : String → Option Bool) :
    MonitorState × List CheckEvent :=
  (st, checkRun res st.mysqlInstances)

/-- Monitor states reachable from `NewMonitor` through the exported
mutating interface. -/
inductive Reach (connOk : String → Bool) : MonitorState → Prop where
  | init : Reach connOk MonitorState.init
  | add (dsn : String) {st : MonitorState} :
      Reach connOk st → Reach connOk (st.add connOk dsn).1
  | remove (dsn : String) (c : Nat) {st : MonitorState} :
      Reach connOk st → Reach connOk (st.remove dsn c)
  | globalSubscribe {st : MonitorState} :
      Reach connOk st → Reach connOk st.globalSubscribe
  | check (res : String → Option Bool) {st : MonitorState} :
      Reach connOk st → Reach connOk (st.check res).1

/-- Well-formedness: map keys are distinct, and every registered record
has at least one direct subscriber. -/
def MonitorState.WF (st : MonitorState) : Prop :=
  (st.mysqlInstances.map Prod.fst).Nodup ∧
  ∀ p ∈ st.mysqlInstances, p.2.subscribers.chans ≠ []

/-- Concrete two-target monitor state used to instantiate `Check`
theorems: targets "a" and "b", one subscriber each. -/
def c6State : MonitorState :=
  { mysqlInstances := [("a", ⟨"a", 0, 1, [0], false⟩), ("b", ⟨"b", 1, 1, [1], false⟩)],
    nextConnId := 2, closedConns := [] }

/-- Concrete restart-check oracle: the check of "a" errors, every other
target reports a restart. -/
def c6Res : String → Option Bool :=
  fun d => if d = "a" then none else some true

/-! ### Connection-supervised collector (src/unnamed/part_000, package mysql)

The `Monitor.run` goroutine reacts to three event sources: the tick
channel, the connected channel fed by the connector goroutine, and the
stop channel.  It is embedded as a step function on an explicit state;
the metric-extraction calls (`GetShowStatusMetrics` etc., SQL against
the live connection, out of scope per spec §6) are abstracted into the
environment function `gather`, and the scheduling outcome of the
delivery `select` — whether `collectionChan` accepts the envelope
within the 500 ms timeout — into the environment function `accepts`. -/

/-- An `mm.Metric` sample: name, kind (the Go field `Type`) and value
(`float64` modelled as a rational). -/
structure Metric where
  name : String
  kind : String
  number : ℚ
  deriving Repr, DecidableEq

/-- An `mm.Collection` envelope: a Unix timestamp and the metric
samples of one tick. -/
structure Collection where
  ts : Int
  metrics : List Metric
  deriving Repr, DecidableEq

/-- The delivery timeout of the run loop:
`case <-time.After(500 * time.Millisecond)`, in milliseconds. -/
def COLLECT_TIMEOUT_MS : Nat := 500

/-- One event received by the run loop's `select`. -/
inductive CollectorEvent where
  | tick (now : Int)
  | connEvent (connected : Bool)
  | stop
  deriving Repr, DecidableEq

/-- Observable outcome of one loop iteration. -/
inductive CollectorOutput where
  | skippedNotConnected
  | delivered (c : Collection)
  | lostTimeout (c : Collection)
  | noMetrics
  | connectedOk
  | reconnecting
  | stopped
  deriving Repr, DecidableEq

/-- State of the run loop: the `connected` flag (Go zero value false),
the envelopes accepted by the downstream `collectionChan` consumer, and
the count of envelopes dropped on delivery timeout (each logged as
lost). -/
structure CollectorState where
  connected : Bool
  delivered : List Collection
  lostCount : Nat
  deriving Repr, DecidableEq

/-- Initial state of `Monitor.run`: not yet connected, nothing
delivered, nothing lost. -/
def CollectorState.init : CollectorState :=
  { connected := false, delivered := [], lostCount := 0 }

/-- One iteration of the `for`/`select` body of `Monitor.run`
(part_000 lines 197-246).  Tick: if not connected, `continue`;
otherwise build the envelope with the gathered metrics; if it has any
metrics, attempt delivery — accepted within the timeout it goes
downstream, otherwise it is dropped and the loss logged; with no
metrics only a debug message is logged.  A connectivity event records
the flag (on disconnect the Go code also respawns the connector).
Stop returns from the loop. -/
def collectorStep (gather : Int → List Metric) (accepts : Int → Bool)
    (st : CollectorState) : CollectorEvent → CollectorState × CollectorOutput
  | CollectorEvent.tick now =>
    if st.connected = false then
      (st, CollectorOutput.skippedNotConnected)
    else
      let c : Collection := { ts := now, metrics := gather now }
      if 0 < c.metrics.length then
        if accepts now then
          ({ st with delivered := st.delivered ++ [c] }, CollectorOutput.delivered c)
        else
          ({ st with lostCount := st.lostCount + 1 }, CollectorOutput.lostTimeout c)
      else
        (st, CollectorOutput.noMetrics)
  | CollectorEvent.connEvent b =>
    ({ st with connected := b },
      if b then CollectorOutput.connectedOk else CollectorOutput.reconnecting)
  | CollectorEvent.stop => (st, CollectorOutput.stopped)

/-- The run loop folded over a finite event schedule; a stop event
terminates the loop, discarding the rest of the schedule. -/
def collectorRun (gather : Int → List Metric) (accepts : Int → Bool)
    (st : CollectorState) : List CollectorEvent → CollectorState × List CollectorOutput
  | [] => (st, [])
  | CollectorEvent.stop :: _ => (st, [CollectorOutput.stopped])
  | e :: es =>
    let p := collectorStep gather accepts st e
    let q := collectorRun gather accepts p.1 es
    (q.1, p.2 :: q.2)

/-- Concrete metric-gathering environment for collector witnesses: one
gauge sample per tick. -/
def c7Gather : Int → List Metric :=
  fun _ => [{ name := "mysql/threads_running", kind := "gauge", number := 5 }]

/-- Concrete delivery environment: the downstream channel times out at
t = 1 and accepts at every other tick. -/
def c7Accepts : Int → Bool :=
  fun t => decide (t ≠ 1)

/-- Concrete connected collector state for witnesses. -/
def c7State : CollectorState :=
  { connected := true, delivered := [], lostCount := 0 }

/-- Concrete gathering environment that yields no metric samples. -/
def c10Gather : Int → List Metric :=
  fun _ => []

/-! ### Lemmas and claim theorems -/

lemma waitState_try (resetAfter : Int) (r : Nat → ℚ) :
    ∀ n, (waitState resetAfter r n).tryCount = min n 7 := by
  intro n
  induction n with
  | zero => rfl
  | succ n ih =>
    show (((waitState resetAfter r n).wait (r n)).1).tryCount = min (n + 1) 7
    rcases Nat.lt_or_ge n 7 with h | h
    · have h0 : (waitState resetAfter r n).tryCount = n := by rw [ih]; omega
      by_cases hn : n = 0
      · subst hn
        simp [Backoff.wait, h0]
      · simp [Backoff.wait, h0, hn, h]
        omega
    · have h0 : (waitState resetAfter r n).tryCount = 7 := by rw [ih]; omega
      simp [Backoff.wait, h0]
      omega

lemma waitOut_plateau (resetAfter : Int) (r : Nat → ℚ) (n : Nat) (h : 7 ≤ n) :
    waitOut resetAfter r n = ⌊(90 : ℚ) + 90 * r n⌋ := by
  have ht : (waitState resetAfter r n).tryCount = 7 := by
    rw [waitState_try]; omega
  simp [waitOut, Backoff.wait, ht]

/-- C1: for a fresh `Backoff`, successive `Wait()` calls return exactly
0, 1, 3, 7, 15, 31, 63 seconds for calls 0 through 6 (equal to
`2 ^ n - 1`), and every call from the 7th onward returns a duration in
`[90, 180)` seconds while the attempt counter stays saturated at 7
(no longer incremented). -/
theorem C1_backoff_wait_schedule (resetAfter : Int) (r : Nat → ℚ)
    (hr : ∀ i, 0 ≤ r i ∧ r i < 1) :
    (∀ n, n ≤ 6 → waitOut resetAfter r n = 2 ^ n - 1 ∧
        [0, 1, 3, 7, 15, 31, 63].get? n = some (waitOut resetAfter r n)) ∧
    (∀ n, 7 ≤ n → 90 ≤ waitOut resetAfter r n ∧ waitOut resetAfter r n < 180 ∧
        (waitState resetAfter r (n + 1)).tryCount = (waitState resetAfter r n).tryCount ∧
        (waitState resetAfter r n).tryCount = 7) := by
  constructor
  · intro n hn
    have ht : (waitState resetAfter r n).tryCount = n := by
      rw [waitState_try]; omega
    have hout : waitOut resetAfter r n = 2 ^ n - 1 := by
      by_cases hn0 : n = 0
      · subst hn0
        simp [waitOut, Backoff.wait, ht]
      · have h7 : n < 7 := by omega
        simp [waitOut, Backoff.wait, ht, hn0, h7]
    refine ⟨hout, ?_⟩
    rw [hout]
    interval_cases n <;> rfl
  · intro n hn
    have hfl : waitOut resetAfter r n = ⌊(90 : ℚ) + 90 * r n⌋ :=
      waitOut_plateau resetAfter r n hn
    have hr0 := (hr n).1
    have hr1 := (hr n).2
    refine ⟨?_, ?_, ?_, ?_⟩
    · rw [hfl]
      refine Int.le_floor.mpr ?_
      push_cast
      nlinarith
    · rw [hfl]
      refine Int.floor_lt.mpr ?_
      push_cast
      nlinarith
    · rw [waitState_try, waitState_try]
      omega
    · rw [waitState_try]; omega

theorem C1_backoff_wait_schedule_witness :
    waitOut 300 (fun _ => (1 : ℚ) / 2) 3 = 7 ∧
    90 ≤ waitOut 300 (fun _ => (1 : ℚ) / 2) 8 := by
  have h := C1_backoff_wait_schedule 300 (fun _ => (1 : ℚ) / 2)
    (fun i => ⟨by norm_num, by norm_num⟩)
  constructor
  · rw [(h.1 3 (by norm_num)).1]; norm_num
  · exact (h.2 8 (by norm_num)).1

/-- C2 (code bug): the claim — matching the comment inside
`Backoff.Success` itself — says a later success resets the attempt
counter to 0 when the time elapsed since the previously recorded
success exceeds `resetAfter`.  The code instead tests
`b.lastSuccess.Sub(b.NowFunc()) > b.resetAfter`, i.e.
lastSuccess − now, which is non-positive for a forward-moving clock, so
the reset never fires.  Concretely: `resetAfter` = 300 s, attempt
counter 3, first success at t = 0, second success at t = 600; 600 s
have elapsed (> 300 s) yet the counter remains 3 and the recorded
success time is not updated. -/
theorem C2_success_never_resets :
    (({ tryCount := 3, lastSuccess := none, resetAfter := 300 : Backoff }.success 0).success
        600).tryCount = 3 ∧
    ({ tryCount := 3, lastSuccess := none, resetAfter := 300 : Backoff }.success 0).lastSuccess
        = some 0 ∧
    (({ tryCount := 3, lastSuccess := none, resetAfter := 300 : Backoff }.success 0).success
        600).lastSuccess = some 0 ∧
    (600 : Int) - 0 > 300 := by
  decide

lemma alLookup_eq_none {α : Type} (k : String) (l : List (String × α)) :
    alLookup k l = none ↔ k ∉ l.map Prod.fst := by
  induction l with
  | nil => simp [alLookup]
  | cons p rest ih =>
    obtain ⟨k', v⟩ := p
    by_cases h : k' = k
    · subst h
      simp [alLookup]
    · simp only [alLookup, if_neg h, List.map_cons, List.mem_cons, not_or, ih]
      constructor
      · intro h1
        exact ⟨fun e => h e.symm, h1⟩
      · intro h1
        exact h1.2

lemma alLookup_mem {α : Type} {k : String} {v : α} {l : List (String × α)}
    (h : alLookup k l = some v) : (k, v) ∈ l := by
  induction l with
  | nil => simp [alLookup] at h
  | cons p rest ih =>
    obtain ⟨k', v'⟩ := p
    by_cases hk : k' = k
    · subst hk
      simp [alLookup] at h
      subst h
      exact List.mem_cons_self _ _
    · simp only [alLookup, if_neg hk] at h
      exact List.mem_cons_of_mem _ (ih h)

lemma alUpdate_map_fst {α : Type} (k : String) (v : α) (l : List (String × α)) :
    (alUpdate k v l).map Prod.fst = l.map Prod.fst := by
  induction l with
  | nil => rfl
  | cons p rest ih =>
    obtain ⟨k', v'⟩ := p
    by_cases h : k' = k
    · subst h
      simp [alUpdate]
    · simp [alUpdate, h, ih]

lemma mem_alUpdate {α : Type} {k : String} {v : α} {l : List (String × α)}
    {p : String × α} (h : p ∈ alUpdate k v l) : p = (k, v) ∨ p ∈ l := by
  induction l with
  | nil => simp [alUpdate] at h
  | cons q rest ih =>
    obtain ⟨k', v'⟩ := q
    by_cases hk : k' = k
    · subst hk
      simp [alUpdate] at h
      rcases h with h | h
      · exact Or.inl h
      · exact Or.inr (List.mem_cons_of_mem _ h)
    · simp only [alUpdate, if_neg hk, List.mem_cons] at h
      rcases h with h | h
      · exact Or.inr (by simp [h])
      · rcases ih h with h1 | h1
        · exact Or.inl h1
        · exact Or.inr (List.mem_cons_of_mem _ h1)

lemma alErase_sublist {α : Type} (k : String) (l : List (String × α)) :
    List.Sublist (alErase k l) l := by
  induction l with
  | nil => exact List.Sublist.refl _
  | cons p rest ih =>
    obtain ⟨k', v'⟩ := p
    by_cases h : k' = k
    · simp only [alErase, if_pos h]
      exact List.sublist_cons_self _ _
    · simp only [alErase, if_neg h]
      exact ih.cons₂ (k', v')

lemma alLookup_alErase_self {α : Type} {k : String} {l : List (String × α)}
    (h : (l.map Prod.fst).Nodup) : alLookup k (alErase k l) = none := by
  induction l with
  | nil => rfl
  | cons p rest ih =>
    obtain ⟨k', v'⟩ := p
    simp only [List.map_cons, List.nodup_cons] at h
    by_cases hk : k' = k
    · subst hk
      simp only [alErase, if_pos rfl]
      exact (alLookup_eq_none _ rest).mpr h.1
    · simp only [alErase, if_neg hk, alLookup, if_neg hk]
      exact ih h.2

lemma wf_init : MonitorState.init.WF := by
  refine ⟨?_, ?_⟩ <;> simp [MonitorState.init, MonitorState.WF]

lemma wf_add {connOk : String → Bool} {st : MonitorState} {dsn : String}
    (h : st.WF) : ((st.add connOk dsn).1).WF := by
  obtain ⟨hnd, hne⟩ := h
  cases hl : alLookup dsn st.mysqlInstances with
  | some inst =>
    simp only [MonitorState.add, hl]
    refine ⟨?_, ?_⟩
    · rw [alUpdate_map_fst]
      exact hnd
    · intro p hp
      rcases mem_alUpdate hp with rfl | hp
      · simp [Subscribers.add]
      · exact hne p hp
  | none =>
    by_cases hc : connOk dsn
    · simp only [MonitorState.add, hl, MonitorState.createMysqlInstance, if_pos hc]
      refine ⟨?_, ?_⟩
      · simp only [List.map_cons, List.nodup_cons]
        exact ⟨(alLookup_eq_none dsn _).mp hl, hnd⟩
      · intro p hp
        rcases List.mem_cons.mp hp with rfl | hp
        · simp [NewSubscribers, Subscribers.add]
        · exact hne p hp
    · simp only [MonitorState.add, hl, MonitorState.createMysqlInstance, if_neg hc]
      exact ⟨hnd, hne⟩

lemma wf_remove {st : MonitorState} (dsn : String) (c : Nat) (h : st.WF) :
    (st.remove dsn c).WF := by
  obtain ⟨hnd, hne⟩ := h
  cases hl : alLookup dsn st.mysqlInstances with
  | none =>
    simp only [MonitorState.remove, hl]
    exact ⟨hnd, hne⟩
  | some inst =>
    by_cases he : (inst.subscribers.remove c).isEmpty
    · simp only [MonitorState.remove, hl, if_pos he]
      refine ⟨?_, ?_⟩
      · exact hnd.sublist ((alErase_sublist dsn _).map Prod.fst)
      · intro p hp
        exact hne p ((alErase_sublist dsn _).subset hp)
    · simp only [MonitorState.remove, hl, if_neg he]
      refine ⟨?_, ?_⟩
      · rw [alUpdate_map_fst]
        exact hnd
      · intro p hp
        rcases mem_alUpdate hp with rfl | hp
        · have h1 : (inst.subscribers.remove c).chans ≠ [] := by
            intro hnil
            exact he (by simp [Subscribers.isEmpty, hnil])
          simpa [Subscribers.globalRemove] using h1
        · exact hne p hp

lemma wf_globalSubscribe {st : MonitorState} (h : st.WF) : st.globalSubscribe.WF := by
  obtain ⟨hnd, hne⟩ := h
  refine ⟨?_, ?_⟩
  · show ((st.mysqlInstances.map instGlobalAdd).map Prod.fst).Nodup
    rw [List.map_map]
    have hcomp : (Prod.fst ∘ instGlobalAdd) = (Prod.fst : String × MysqlInstance → String) := by
      funext p
      rfl
    rw [hcomp]
    exact hnd
  · intro p hp
    obtain ⟨q, hq, rfl⟩ := List.mem_map.mp hp
    have h1 := hne q hq
    simpa [instGlobalAdd, Subscribers.globalAdd] using h1

lemma reach_wf {connOk : String → Bool} {st : MonitorState}
    (h : Reach connOk st) : st.WF := by
  induction h with
  | init => exact wf_init
  | add dsn _ ih => exact wf_add ih
  | remove dsn c _ ih => exact wf_remove dsn c ih
  | globalSubscribe _ ih => exact wf_globalSubscribe ih
  | check res _ ih => exact ih

lemma remove_last_evicts {st : MonitorState} {dsn : String} {inst : MysqlInstance}
    {c : Nat} (hnd : (st.mysqlInstances.map Prod.fst).Nodup)
    (hl : alLookup dsn st.mysqlInstances = some inst)
    (hc : inst.subscribers.chans = [c]) :
    alLookup dsn (st.remove dsn c).mysqlInstances = none := by
  have he : (inst.subscribers.remove c).isEmpty = true := by
    simp [Subscribers.remove, Subscribers.isEmpty, hc]
  simp only [MonitorState.remove, hl, he, if_pos]
  exact alLookup_alErase_self hnd

lemma remove_closedConns (st : MonitorState) (dsn : String) (c : Nat) :
    (st.remove dsn c).closedConns = st.closedConns := by
  cases hl : alLookup dsn st.mysqlInstances with
  | none => simp [MonitorState.remove, hl]
  | some inst =>
    by_cases he : (inst.subscribers.remove c).isEmpty
    · simp [MonitorState.remove, hl, he]
    · simp [MonitorState.remove, hl, he]

/-- C3: in every reachable monitor state a target's monitored-instance
record exists if and only if it has at least one subscriber: every
registered record has a nonempty subscriber set; `Add` of a fresh
target (with a working connection) creates the record together with its
first — and only — subscriber handle; and `Remove` of the last
remaining subscriber evicts the record entirely from the map. -/
theorem C3_record_iff_subscriber (connOk : String → Bool) :
    (∀ st : MonitorState, Reach connOk st → ∀ dsn inst,
        alLookup dsn st.mysqlInstances = some inst → inst.subscribers.chans ≠ []) ∧
    (∀ st : MonitorState, ∀ dsn, alLookup dsn st.mysqlInstances = none →
        connOk dsn = true →
        ∃ c inst, (st.add connOk dsn).2 = some c ∧
          alLookup dsn ((st.add connOk dsn).1).mysqlInstances = some inst ∧
          inst.subscribers.chans = [c]) ∧
    (∀ st : MonitorState, Reach connOk st → ∀ dsn inst c,
        alLookup dsn st.mysqlInstances = some inst → inst.subscribers.chans = [c] →
        alLookup dsn ((st.remove dsn c)).mysqlInstances = none) := by
  refine ⟨?_, ?_, ?_⟩
  · intro st hr dsn inst hl
    exact (reach_wf hr).2 (dsn, inst) (alLookup_mem hl)
  · intro st dsn hl hc
    refine ⟨0, ⟨dsn, st.nextConnId, 1, [0], false⟩, ?_, ?_, ?_⟩
    · simp [MonitorState.add, hl, MonitorState.createMysqlInstance, hc,
        NewSubscribers, Subscribers.add]
    · simp [MonitorState.add, hl, MonitorState.createMysqlInstance, hc,
        NewSubscribers, Subscribers.add, alLookup]
    · rfl
  · intro st hr dsn inst c hl hc
    exact remove_last_evicts (reach_wf hr).1 hl hc

theorem C3_record_iff_subscriber_witness :
    alLookup "db" (((MonitorState.init.add (fun _ => true) "db").1).remove "db"
      0).mysqlInstances = none :=
  (C3_record_iff_subscriber (fun _ => true)).2.2
    ((MonitorState.init.add (fun _ => true) "db").1) (Reach.add "db" Reach.init)
    "db" ⟨"db", 0, 1, [0], false⟩ 0 (by decide) rfl

/-- C4 counterexample: the claim says `Remove` of the last remaining
subscriber closes the connection that was opened for the target when it
was first added.  Concretely: with a working connection factory, add
target "a" (this opens connection handle 0 for it, with handle 0 the
returned subscriber channel); then remove that last subscriber.  The
record is evicted, yet the set of connections on which a close was
invoked is still empty — `Monitor.Remove` contains no close call, and
the `Subscribers` registry it delegates to has no access to the
connection. -/
theorem C4_remove_close_counterexample :
    alLookup "a" ((MonitorState.init.add (fun _ => true) "a").1).mysqlInstances
      = some { dsn := "a", connId := 0,
               subscribers := { nextId := 1, chans := [0], globalReg := false } } ∧
    alLookup "a" (((MonitorState.init.add (fun _ => true) "a").1).remove "a"
      0).mysqlInstances = none ∧
    (((MonitorState.init.add (fun _ => true) "a").1).remove "a" 0).closedConns = [] := by
  decide

/-- C4 (amended): `Remove` of the last remaining subscriber of a
registered target evicts the target's record — and with it the
connection handle opened when the target was first added — from the
instance map, but invokes no close on that connection (the set of
closed connections is unchanged). -/
theorem C4_remove_evicts_without_close (connOk : String → Bool) (st : MonitorState)
    (dsn : String) (inst : MysqlInstance) (c : Nat) (hr : Reach connOk st)
    (hl : alLookup dsn st.mysqlInstances = some inst)
    (hc : inst.subscribers.chans = [c]) :
    alLookup dsn ((st.remove dsn c)).mysqlInstances = none ∧
    (st.remove dsn c).closedConns = st.closedConns :=
  ⟨remove_last_evicts (reach_wf hr).1 hl hc, remove_closedConns st dsn c⟩

theorem C4_remove_evicts_without_close_witness :
    alLookup "a" (((MonitorState.init.add (fun _ => true) "a").1).remove "a"
      0).mysqlInstances = none ∧
    (((MonitorState.init.add (fun _ => true) "a").1).remove "a" 0).closedConns
      = ((MonitorState.init.add (fun _ => true) "a").1).closedConns :=
  C4_remove_evicts_without_close (fun _ => true)
    ((MonitorState.init.add (fun _ => true) "a").1) "a"
    { dsn := "a", connId := 0,
      subscribers := { nextId := 1, chans := [0], globalReg := false } }
    0 (Reach.add "a" Reach.init) (by decide) rfl

/-- C5: for a target not yet registered, if opening the connection
fails, `Add` returns an error (`none` models the Go `(nil, err)`
return) and leaves the monitor state — in particular the instance map —
completely unchanged; a subscriber channel is returned only when the
connection was created successfully. -/
theorem C5_add_failure_frame (connOk : String → Bool) (st : MonitorState)
    (dsn : String) (h : alLookup dsn st.mysqlInstances = none) :
    (connOk dsn = false → st.add connOk dsn = (st, none)) ∧
    (∀ c, (st.add connOk dsn).2 = some c → connOk dsn = true) := by
  constructor
  · intro hf
    simp [MonitorState.add, h, MonitorState.createMysqlInstance, hf]
  · intro c hc
    by_cases hco : connOk dsn
    · exact hco
    · simp only [Bool.not_eq_true] at hco
      simp [MonitorState.add, h, MonitorState.createMysqlInstance, hco] at hc

theorem C5_add_failure_frame_witness :
    MonitorState.init.add (fun _ => false) "a" = (MonitorState.init, none) :=
  (C5_add_failure_frame (fun _ => false) MonitorState.init "a" rfl).1 rfl

/-- C9: `Remove` on a target that is not in the instance map is a
no-op: the whole monitor state (instance map, every subscriber set, the
connection bookkeeping) is returned unchanged, and the method returns
normally (it has no error return at all). -/
theorem C9_remove_unknown_noop (st : MonitorState) (dsn : String) (c : Nat)
    (h : alLookup dsn st.mysqlInstances = none) :
    st.remove dsn c = st := by
  simp [MonitorState.remove, h]

theorem C9_remove_unknown_noop_witness :
    MonitorState.init.remove "a" 0 = MonitorState.init :=
  C9_remove_unknown_noop MonitorState.init "a" 0 rfl

lemma checkRun_mem (res : String → Option Bool) :
    ∀ l : List (String × MysqlInstance), ∀ p ∈ l,
      checkEventFor res p.1 ∈ checkRun res l := by
  intro l
  induction l with
  | nil =>
    intro p hp
    simp at hp
  | cons q rest ih =>
    intro p hp
    obtain ⟨k, v⟩ := q
    rcases List.mem_cons.mp hp with rfl | hp
    · simp [checkRun]
    · exact List.mem_cons_of_mem _ (ih p hp)

lemma mem_checkRun {res : String → Option Bool} :
    ∀ {l : List (String × MysqlInstance)} {e : CheckEvent}, e ∈ checkRun res l →
      ∃ p ∈ l, e = checkEventFor res p.1 := by
  intro l
  induction l with
  | nil =>
    intro e he
    simp [checkRun] at he
  | cons q rest ih =>
    intro e he
    obtain ⟨k, v⟩ := q
    simp only [checkRun] at he
    rcases List.mem_cons.mp he with rfl | he
    · exact ⟨(k, v), List.mem_cons_self _ _, rfl⟩
    · obtain ⟨p, hp, hpe⟩ := ih he
      exact ⟨p, List.mem_cons_of_mem _ hp, hpe⟩

/-- C6: during one invocation of `Check`, a restart-check error on one
target causes that target to be skipped for the current tick only: the
instance map is left unchanged (nothing is deregistered), the erroring
target's event is a logged error and that target is never notified,
every target in the map still gets its restart check in the same tick,
and every target whose check reports a restart has `Notify` invoked on
its subscribers. -/
theorem C6_check_error_isolation (res : String → Option Bool) (st : MonitorState)
    (dsn : String) (herr : res dsn = none) :
    (st.check res).1 = st ∧
    (∀ p ∈ st.mysqlInstances, checkEventFor res p.1 ∈ (st.check res).2) ∧
    checkEventFor res dsn = CheckEvent.errorLogged dsn ∧
    CheckEvent.notified dsn ∉ (st.check res).2 ∧
    (∀ p ∈ st.mysqlInstances, res p.1 = some true →
      CheckEvent.notified p.1 ∈ (st.check res).2) := by
  refine ⟨rfl, ?_, ?_, ?_, ?_⟩
  · intro p hp
    exact checkRun_mem res _ p hp
  · simp [checkEventFor, herr]
  · intro hmem
    obtain ⟨p, hp, hpe⟩ := mem_checkRun hmem
    cases hres : res p.1 with
    | none => simp [checkEventFor, hres] at hpe
    | some b =>
      cases b with
      | false => simp [checkEventFor, hres] at hpe
      | true =>
        simp only [checkEventFor, hres, CheckEvent.notified.injEq] at hpe
        rw [hpe] at herr
        rw [herr] at hres
        exact Option.noConfusion hres
  · intro p hp hres
    have h1 := checkRun_mem res _ p hp
    simpa [checkEventFor, hres] using h1

theorem C6_check_error_isolation_witness :
    (c6State.check c6Res).1 = c6State ∧
    CheckEvent.notified "a" ∉ (c6State.check c6Res).2 ∧
    CheckEvent.notified "b" ∈ (c6State.check c6Res).2 := by
  have h := C6_check_error_isolation c6Res c6State "a" (by simp [c6Res])
  exact ⟨h.1, h.2.2.2.1,
    h.2.2.2.2 ("b", ⟨"b", 1, 1, [1], false⟩) (by simp [c6State]) (by simp [c6Res])⟩

/-- C7: an envelope produced on a tick is delivered downstream with a
bounded wait of `COLLECT_TIMEOUT_MS` = 500 milliseconds; if the channel
does not accept it within that timeout the envelope is discarded — the
successor state records it nowhere (the delivered list is unchanged and
no other component holds envelopes), only the lost counter (the logged
loss) grows, the connected flag is untouched — and the loop proceeds:
a following tick is processed normally and only its own fresh envelope
is delivered (the dropped one is never queued or retried). -/
theorem C7_delivery_timeout_drops (gather : Int → List Metric) (accepts : Int → Bool)
    (st : CollectorState) (now : Int)
    (hconn : st.connected = true) (hm : gather now ≠ [])
    (htimeout : accepts now = false) :
    COLLECT_TIMEOUT_MS = 500 ∧
    ((collectorStep gather accepts st (CollectorEvent.tick now)).1.delivered
        = st.delivered ∧
      (collectorStep gather accepts st (CollectorEvent.tick now)).1.lostCount
        = st.lostCount + 1 ∧
      (collectorStep gather accepts st (CollectorEvent.tick now)).1.connected
        = st.connected ∧
      (collectorStep gather accepts st (CollectorEvent.tick now)).2
        = CollectorOutput.lostTimeout ⟨now, gather now⟩) ∧
    (∀ now2, gather now2 ≠ [] → accepts now2 = true →
      (collectorStep gather accepts
          (collectorStep gather accepts st (CollectorEvent.tick now)).1
          (CollectorEvent.tick now2)).2
        = CollectorOutput.delivered ⟨now2, gather now2⟩ ∧
      (collectorStep gather accepts
          (collectorStep gather accepts st (CollectorEvent.tick now)).1
          (CollectorEvent.tick now2)).1.delivered
        = st.delivered ++ [⟨now2, gather now2⟩]) := by
  have hlen : 0 < (gather now).length := List.length_pos.mpr hm
  refine ⟨rfl, ?_, ?_⟩
  · refine ⟨?_, ?_, ?_, ?_⟩ <;> simp [collectorStep, hconn, htimeout, hlen]
  · intro now2 hm2 hacc2
    have hst : (collectorStep gather accepts st (CollectorEvent.tick now)).1
        = { st with lostCount := st.lostCount + 1 } := by
      simp [collectorStep, hconn, htimeout, hlen]
    have hlen2 : 0 < (gather now2).length := List.length_pos.mpr hm2
    rw [hst]
    constructor
    · simp [collectorStep, hconn, hacc2, hlen2]
    · simp [collectorStep, hconn, hacc2, hlen2]

theorem C7_delivery_timeout_drops_witness :
    COLLECT_TIMEOUT_MS = 500 ∧
    (collectorStep c7Gather c7Accepts c7State (CollectorEvent.tick 1)).1.lostCount = 1 ∧
    (collectorStep c7Gather c7Accepts
        (collectorStep c7Gather c7Accepts c7State (CollectorEvent.tick 1)).1
        (CollectorEvent.tick 2)).2
      = CollectorOutput.delivered ⟨2, c7Gather 2⟩ := by
  have h := C7_delivery_timeout_drops c7Gather c7Accepts c7State 1 rfl
    (by simp [c7Gather]) (by simp [c7Accepts])
  refine ⟨h.1, ?_, (h.2.2 2 (by simp [c7Gather]) (by simp [c7Accepts])).1⟩
  rw [h.2.1.2.1]
  rfl

lemma collectorRun_disconnected (gather : Int → List Metric) (accepts : Int → Bool) :
    ∀ evs : List CollectorEvent, ∀ st : CollectorState,
      st.connected = false → CollectorEvent.connEvent true ∉ evs →
      (collectorRun gather accepts st evs).1.connected = false ∧
      (collectorRun gather accepts st evs).1.delivered = st.delivered ∧
      (collectorRun gather accepts st evs).1.lostCount = st.lostCount ∧
      ∀ o ∈ (collectorRun gather accepts st evs).2,
        o = CollectorOutput.skippedNotConnected ∨ o = CollectorOutput.reconnecting ∨
        o = CollectorOutput.stopped := by
  intro evs
  induction evs with
  | nil =>
    intro st hc _
    refine ⟨hc, rfl, rfl, ?_⟩
    intro o ho
    simp [collectorRun] at ho
  | cons e rest ih =>
    intro st hc hnotin
    have hne : CollectorEvent.connEvent true ∉ rest :=
      fun h => hnotin (List.mem_cons_of_mem _ h)
    cases e with
    | tick now =>
      have hstep : collectorStep gather accepts st (CollectorEvent.tick now)
          = (st, CollectorOutput.skippedNotConnected) := by
        simp [collectorStep, hc]
      obtain ⟨i1, i2, i3, i4⟩ := ih st hc hne
      simp only [collectorRun, hstep]
      refine ⟨i1, i2, i3, ?_⟩
      intro o ho
      rcases List.mem_cons.mp ho with rfl | ho
      · exact Or.inl rfl
      · exact i4 o ho
    | connEvent b =>
      have hb : b = false := by
        cases b with
        | false => rfl
        | true => exact absurd (List.mem_cons_self _ _) hnotin
      subst hb
      have hstep : collectorStep gather accepts st (CollectorEvent.connEvent false)
          = ({ st with connected := false }, CollectorOutput.reconnecting) := by
        simp [collectorStep]
      obtain ⟨i1, i2, i3, i4⟩ := ih { st with connected := false } rfl hne
      simp only [collectorRun, hstep]
      refine ⟨i1, i2, i3, ?_⟩
      intro o ho
      rcases List.mem_cons.mp ho with rfl | ho
      · exact Or.inr (Or.inl rfl)
      · exact i4 o ho
    | stop =>
      refine ⟨hc, rfl, rfl, ?_⟩
      intro o ho
      simp only [collectorRun, List.mem_singleton] at ho
      exact Or.inr (Or.inr ho)

/-- C8: while no "connected" connectivity event has arrived, every tick
is a no-op: starting from the initial state, a run over any event
schedule containing no connected event delivers nothing downstream,
loses nothing (so no collection was even attempted), and produces only
skip/reconnect/stop outcomes; moreover a tick is honored — anything
other than a skip happens — only when the connected flag is set. -/
theorem C8_no_collection_before_connected (gather : Int → List Metric)
    (accepts : Int → Bool) (evs : List CollectorEvent)
    (h : CollectorEvent.connEvent true ∉ evs) :
    (collectorRun gather accepts CollectorState.init evs).1.delivered = [] ∧
    (collectorRun gather accepts CollectorState.init evs).1.lostCount = 0 ∧
    (∀ o ∈ (collectorRun gather accepts CollectorState.init evs).2,
      o = CollectorOutput.skippedNotConnected ∨ o = CollectorOutput.reconnecting ∨
      o = CollectorOutput.stopped) ∧
    (∀ st : CollectorState, ∀ now : Int, st.connected = false →
      collectorStep gather accepts st (CollectorEvent.tick now)
        = (st, CollectorOutput.skippedNotConnected)) := by
  obtain ⟨h1, h2, h3, h4⟩ :=
    collectorRun_disconnected gather accepts evs CollectorState.init rfl h
  refine ⟨h2, h3, h4, ?_⟩
  intro st now hc
  simp [collectorStep, hc]

theorem C8_no_collection_before_connected_witness :
    (collectorRun c7Gather c7Accepts CollectorState.init
      [CollectorEvent.tick 5, CollectorEvent.connEvent false,
        CollectorEvent.tick 6]).1.delivered = [] ∧
    (collectorRun c7Gather c7Accepts CollectorState.init
      [CollectorEvent.tick 5, CollectorEvent.connEvent false,
        CollectorEvent.tick 6]).1.lostCount = 0 := by
  have h := C8_no_collection_before_connected c7Gather c7Accepts
    [CollectorEvent.tick 5, CollectorEvent.connEvent false, CollectorEvent.tick 6]
    (by decide)
  exact ⟨h.1, h.2.1⟩

lemma collectorStep_delivered (gather : Int → List Metric) (accepts : Int → Bool)
    (st : CollectorState) (e : CollectorEvent) :
    (collectorStep gather accepts st e).1.delivered = st.delivered ∨
    ∃ now, e = CollectorEvent.tick now ∧ gather now ≠ [] ∧
      (collectorStep gather accepts st e).1.delivered
        = st.delivered ++ [⟨now, gather now⟩] := by
  cases e with
  | tick now =>
    by_cases hc : st.connected = false
    · left
      simp [collectorStep, hc]
    · by_cases hl : 0 < (gather now).length
      · by_cases ha : accepts now
        · right
          refine ⟨now, rfl, ?_, ?_⟩
          · intro hnil
            rw [hnil] at hl
            simp at hl
          · simp [collectorStep, hc, hl, ha]
        · left
          simp [collectorStep, hc, hl, ha]
      · left
        simp [collectorStep, hc, hl]
  | connEvent b =>
    left
    simp [collectorStep]
  | stop =>
    left
    simp [collectorStep]

lemma collectorRun_delivered_nonempty (gather : Int → List Metric) (accepts : Int → Bool) :
    ∀ evs : List CollectorEvent, ∀ st : CollectorState,
      (∀ c ∈ st.delivered, c.metrics ≠ []) →
      ∀ c ∈ (collectorRun gather accepts st evs).1.delivered, c.metrics ≠ [] := by
  intro evs
  induction evs with
  | nil =>
    intro st hst
    exact hst
  | cons e rest ih =>
    intro st hst
    have hstep : ∀ c ∈ (collectorStep gather accepts st e).1.delivered, c.metrics ≠ [] := by
      rcases collectorStep_delivered gather accepts st e with hsame | ⟨now, _, hne, happ⟩
      · rw [hsame]
        exact hst
      · rw [happ]
        intro c hc
        rcases List.mem_append.mp hc with h | h
        · exact hst c h
        · rw [List.mem_singleton] at h
          subst h
          exact hne
    cases e with
    | tick now =>
      simp only [collectorRun]
      exact ih _ hstep
    | connEvent b =>
      simp only [collectorRun]
      exact ih _ hstep
    | stop =>
      exact hst

/-- C10: on a tick processed while connected whose metric gathering
yields zero samples, the collector makes no delivery attempt at all:
the state is completely unchanged (nothing enters the downstream list,
the loss counter does not move — there was no timeout wait) and the
only outcome is the "No metrics" debug log; consequently, over any run
from the initial state, downstream consumers never receive an envelope
with an empty metrics list. -/
theorem C10_empty_collection_not_sent (gather : Int → List Metric) (accepts : Int → Bool)
    (st : CollectorState) (now : Int)
    (hconn : st.connected = true) (hm : gather now = []) :
    collectorStep gather accepts st (CollectorEvent.tick now)
      = (st, CollectorOutput.noMetrics) ∧
    (∀ evs : List CollectorEvent,
      ∀ c ∈ (collectorRun gather accepts CollectorState.init evs).1.delivered,
        c.metrics ≠ []) := by
  constructor
  · simp [collectorStep, hconn, hm]
  · intro evs
    refine collectorRun_delivered_nonempty gather accepts evs CollectorState.init ?_
    intro c hc
    simp [CollectorState.init] at hc

theorem C10_empty_collection_not_sent_witness :
    collectorStep c10Gather c7Accepts c7State (CollectorEvent.tick 0)
      = (c7State, CollectorOutput.noMetrics) :=
  (C10_empty_collection_not_sent c10Gather c7Accepts c7State 0 rfl rfl).1

end PerconaAgent
